import Mathlib

/-
Verification of core components of the genji embeddable SQL engine against
its specification. The Go source is shallowly embedded: Go structs become
Lean structures, Go maps become association lists with Go-map access
semantics, int64 arithmetic is arbitrary-precision integers wrapped
explicitly modulo 2^64, float64 values are modelled as exact rationals
(no settled property depends on IEEE-754 rounding), and fallible Go
functions return Except.
-/

set_option maxHeartbeats 1000000

set_option maxRecDepth 10000

namespace Genji

/-! ## types package (types/types.go): value type tags -/

namespace types

def AnyType : Nat := 0x00

def NullValue : Nat := 0x80

def BoolValue : Nat := 0x81

def IntegerValue : Nat := 0x90

def DoubleValue : Nat := 0xA0

def TextValue : Nat := 0xC0

def BlobValue : Nat := 0xD0

def ArrayValue : Nat := 0xE0

def DocumentValue : Nat := 0xF0

/-- types.ValueType.IsNumber: t is either an integer or a double. -/
def IsNumber (t : Nat) : Bool := t == IntegerValue || t == DoubleValue

end types

/-! ## document package (document/value.go): the tagged value model.

A Go `value` struct holds a type tag `tp` and an `interface{}` payload `v`.
A Go interface value is either nil or carries a dynamic type with data;
we model it as `Option GoVal`. Note that an interface holding a nil slice
is itself non-nil, which matters for `IsZeroValue` on blobs. -/

inductive GoVal where
  | vbool (b : Bool)
  | vint (i : Int)
  | vdouble (q : Rat)
  | vstring (s : String)
  | vbytes (bs : List Nat)
  | varray (elems : List GoVal)
  | vdoc (fields : List (String × GoVal))

namespace document

structure Value where
  tp : Nat
  v : Option GoVal

def NewNullValue : Value := ⟨types.NullValue, none⟩

def NewBoolValue (x : Bool) : Value := ⟨types.BoolValue, some (.vbool x)⟩

def NewIntegerValue (x : Int) : Value := ⟨types.IntegerValue, some (.vint x)⟩

def NewDoubleValue (x : Rat) : Value := ⟨types.DoubleValue, some (.vdouble x)⟩

def NewBlobValue (x : List Nat) : Value := ⟨types.BlobValue, some (.vbytes x)⟩

def NewTextValue (x : String) : Value := ⟨types.TextValue, some (.vstring x)⟩

def NewArrayValue (x : List GoVal) : Value := ⟨types.ArrayValue, some (.varray x)⟩

def NewDocumentValue (x : List (String × GoVal)) : Value := ⟨types.DocumentValue, some (.vdoc x)⟩

/-- IsZeroValue (document/value.go): whether the value data is the zero
value for the value type. Each Go branch compares the interface payload
with a typed constant, which is true exactly when the dynamic type matches
and the data is equal; the blob branch compares the interface itself with
nil, which is false whenever a `[]byte` payload is present, even a nil or
empty one. The array branch type-asserts and probes `GetByIndex(0)`
(`ErrValueNotFound` exactly on an empty array); the document branch
iterates and stops at the first field, so it reports emptiness. A failed
type assertion panics in Go and is an error here. -/
def IsZeroValue (val : Value) : Except String Bool :=
  if val.tp == types.BoolValue then
    .ok (match val.v with | some (.vbool b) => b == false | _ => false)
  else if val.tp == types.IntegerValue then
    .ok (match val.v with | some (.vint i) => i == 0 | _ => false)
  else if val.tp == types.DoubleValue then
    .ok (match val.v with | some (.vdouble q) => q == 0 | _ => false)
  else if val.tp == types.BlobValue then
    .ok val.v.isNone
  else if val.tp == types.TextValue then
    .ok (match val.v with | some (.vstring s) => s == "" | _ => false)
  else if val.tp == types.ArrayValue then
    match val.v with
    | some (.varray es) => .ok es.isEmpty
    | _ => .error "type assertion failed"
  else if val.tp == types.DocumentValue then
    match val.v with
    | some (.vdoc fs) => .ok fs.isEmpty
    | _ => .error "type assertion failed"
  else
    .ok false

/-- IsTruthy (document/value.go): false for Null, otherwise the negation
of IsZeroValue, propagating its error. -/
def IsTruthy (val : Value) : Except String Bool :=
  if val.tp == types.NullValue then .ok false
  else (IsZeroValue val).map (fun b => !b)

/-! ### int64 helpers.

Go int64 arithmetic wraps modulo 2^64; `wrap64` maps an unbounded integer
to the int64 it denotes. Division and remainder truncate toward zero.
Bitwise operators act on the 64-bit two's-complement representation. -/

def wrap64 (x : Int) : Int := (x + 2 ^ 63) % 2 ^ 64 - 2 ^ 63

def toU64 (x : Int) : Nat := (x % (2 ^ 64 : Int)).toNat

def ofU64 (n : Nat) : Int := if n < 2 ^ 63 then (n : Int) else (n : Int) - 2 ^ 64

def i64Land (a b : Int) : Int := ofU64 (Nat.land (toU64 a) (toU64 b))

def i64Lor (a b : Int) : Int := ofU64 (Nat.lor (toU64 a) (toU64 b))

def i64Lxor (a b : Int) : Int := ofU64 (Nat.xor (toU64 a) (toU64 b))

/-- Go float-to-int conversion truncates toward zero. -/
def ratTrunc (q : Rat) : Int := q.num.tdiv (q.den : Int)

/-- Go type assertion `.(int64)`; callers only reach it on integer-typed
values, where the payload is present. -/
def intPayload (val : Value) : Int :=
  match val.v with | some (.vint i) => i | _ => 0

/-- Go type assertion `.(float64)`; callers only reach it on double-typed
values, where the payload is present. -/
def ratPayload (val : Value) : Rat :=
  match val.v with | some (.vdouble q) => q | _ => 0

/-! ### casts (document/cast.go), restricted to the branches reachable
from `calculateValues` (both operands are numeric there). The source also
parses text via strconv; no settled claim depends on that branch, so it is
left as a cast failure. -/

def CastAsInteger (val : Value) : Except String Value :=
  if val.tp == types.IntegerValue then .ok val
  else if val.tp == types.BoolValue then
    .ok (NewIntegerValue (match val.v with | some (.vbool true) => 1 | _ => 0))
  else if val.tp == types.DoubleValue then
    .ok (NewIntegerValue (ratTrunc (ratPayload val)))
  else .error "cannot cast as integer"

def CastAsDouble (val : Value) : Except String Value :=
  if val.tp == types.DoubleValue then .ok val
  else if val.tp == types.IntegerValue then
    .ok (NewDoubleValue ((intPayload val : Int) : Rat))
  else .error "cannot cast as double"

/-- The operator byte passed to calculateValues; one constructor per Go
case label. -/
inductive ArithOp where
  | add | sub | mul | div | mod | band | bor | bxor

/-- The shared body of the Go cases for addition and subtraction
(subtraction negates xb, wrapping, then falls through to addition):
wrapping add followed by the overflow test `(xr > xa) != (xb > 0)`, which
promotes to a Double computed from the float64-converted operands. -/
def integerAddBody (xa xb : Int) : Except String Value :=
  let xr := wrap64 (xa + xb)
  if (decide (xr > xa)) != (decide (xb > 0)) then
    .ok (NewDoubleValue ((xa : Rat) + (xb : Rat)))
  else
    .ok (NewIntegerValue xr)

/-- calculateIntegers (document/value.go). -/
def calculateIntegers (a b : Value) (op : ArithOp) : Except String Value :=
  match CastAsInteger a with
  | .error _ => .ok NewNullValue
  | .ok ia =>
    match CastAsInteger b with
    | .error _ => .ok NewNullValue
    | .ok ib =>
      let xa := intPayload ia
      let xb := intPayload ib
      match op with
      | .sub => integerAddBody xa (wrap64 (-xb))
      | .add => integerAddBody xa xb
      | .mul =>
        if xa == 0 || xb == 0 then .ok (NewIntegerValue 0)
        else
          let xr := wrap64 (xa * xb)
          if (decide (xr < 0)) == ((decide (xa < 0)) != (decide (xb < 0))) then
            if xr.tdiv xb == xa then .ok (NewIntegerValue xr)
            else .ok (NewDoubleValue ((xa : Rat) * (xb : Rat)))
          else .ok (NewDoubleValue ((xa : Rat) * (xb : Rat)))
      | .div =>
        if xb == 0 then .ok NewNullValue
        else .ok (NewIntegerValue (xa.tdiv xb))
      | .mod =>
        if xb == 0 then .ok NewNullValue
        else .ok (NewIntegerValue (xa.tmod xb))
      | .band => .ok (NewIntegerValue (i64Land xa xb))
      | .bor => .ok (NewIntegerValue (i64Lor xa xb))
      | .bxor => .ok (NewIntegerValue (i64Lxor xa xb))

/-- Go math.Mod keeps the sign of the dividend: x - trunc(x/y)*y. -/
def ratFmod (x y : Rat) : Rat := x - (ratTrunc (x / y) : Rat) * y

/-- calculateFloats (document/value.go). The source computes on float64;
doubles are modelled as exact rationals. math.Mod with a zero divisor is
NaN, which the source maps to Null. -/
def calculateFloats (a b : Value) (op : ArithOp) : Except String Value :=
  match CastAsDouble a with
  | .error _ => .ok NewNullValue
  | .ok fa =>
    match CastAsDouble b with
    | .error _ => .ok NewNullValue
    | .ok fb =>
      let xa := ratPayload fa
      let xb := ratPayload fb
      match op with
      | .add => .ok (NewDoubleValue (xa + xb))
      | .sub => .ok (NewDoubleValue (xa - xb))
      | .mul => .ok (NewDoubleValue (xa * xb))
      | .div =>
        if xb == 0 then .ok NewNullValue
        else .ok (NewDoubleValue (xa / xb))
      | .mod =>
        if xb == 0 then .ok NewNullValue
        else .ok (NewDoubleValue (ratFmod xa xb))
      | .band => .ok (NewIntegerValue (i64Land (ratTrunc xa) (ratTrunc xb)))
      | .bor => .ok (NewIntegerValue (i64Lor (ratTrunc xa) (ratTrunc xb)))
      | .bxor => .ok (NewIntegerValue (i64Lxor (ratTrunc xa) (ratTrunc xb)))

/-- calculateValues (document/value.go): Null or Bool operands yield Null,
non-numeric mixes yield Null, doubles promote, otherwise integers. -/
def calculateValues (a b : Value) (op : ArithOp) : Except String Value :=
  if a.tp == types.NullValue || b.tp == types.NullValue then .ok NewNullValue
  else if a.tp == types.BoolValue || b.tp == types.BoolValue then .ok NewNullValue
  else if types.IsNumber a.tp && types.IsNumber b.tp then
    if a.tp == types.DoubleValue || b.tp == types.DoubleValue then calculateFloats a b op
    else calculateIntegers a b op
  else .ok NewNullValue

def Add (v1 v2 : Value) : Except String Value := calculateValues v1 v2 .add

def Sub (v1 v2 : Value) : Except String Value := calculateValues v1 v2 .sub

def Mul (v1 v2 : Value) : Except String Value := calculateValues v1 v2 .mul

def Div (v1 v2 : Value) : Except String Value := calculateValues v1 v2 .div

def Mod (v1 v2 : Value) : Except String Value := calculateValues v1 v2 .mod

def BitwiseAnd (v1 v2 : Value) : Except String Value := calculateValues v1 v2 .band

def BitwiseOr (v1 v2 : Value) : Except String Value := calculateValues v1 v2 .bor

def BitwiseXor (v1 v2 : Value) : Except String Value := calculateValues v1 v2 .bxor

/-- Structural equality of interface payloads, used to model Go equality
of dynamic values of the same type. -/
def goValEq : GoVal → GoVal → Bool
  | .vbool a, .vbool b => a == b
  | .vint a, .vint b => a == b
  | .vdouble a, .vdouble b => a == b
  | .vstring a, .vstring b => a == b
  | .vbytes a, .vbytes b => a == b
  | .varray [], .varray [] => true
  | .varray (x :: xs), .varray (y :: ys) =>
      goValEq x y && goValEq (.varray xs) (.varray ys)
  | .vdoc [], .vdoc [] => true
  | .vdoc ((n, x) :: xs), .vdoc ((m, y) :: ys) =>
      n == m && goValEq x y && goValEq (.vdoc xs) (.vdoc ys)
  | _, _ => false

def goValOptEq : Option GoVal → Option GoVal → Bool
  | none, none => true
  | some a, some b => goValEq a b
  | _, _ => false

/-- The numeric content of an integer or double value. -/
def numAsRat (a : Value) : Rat :=
  if a.tp == types.IntegerValue then (intPayload a : Rat) else ratPayload a

/-- Modelled from the spec: document.Value.IsEqual is not among the
provided source files. Per §3, Null compares equal only to Null, Integer
and Double are cross-comparable (numeric equality), any other type mix is
unequal, and same-type values compare by their data. -/
def valueIsEqual (a b : Value) : Bool :=
  if types.IsNumber a.tp && types.IsNumber b.tp then numAsRat a == numAsRat b
  else if a.tp != b.tp then false
  else if a.tp == types.NullValue then true
  else goValOptEq a.v b.v

end document

/-! ## expr package (sql/query/expr/comparison.go): comparison operators -/

namespace expr

inductive CmpTok where
  | eq | neq | gt | gte | lt | lte

def nullLitteral : document.Value := document.NewNullValue

def trueLitteral : document.Value := document.NewBoolValue true

def falseLitteral : document.Value := document.NewBoolValue false

/-- cmpOp.Eval (sql/query/expr/comparison.go), applied to the two operand
values produced by simpleOperator.eval. The dispatched comparison methods
(document.Value.IsEqual and friends) live outside the provided sources, so
`op.compare` is a parameter here. Comparing with NULL always evaluates to
NULL, before compare is consulted. -/
def cmpOpEval (compare : CmpTok → document.Value → document.Value → Except String Bool)
    (tok : CmpTok) (v1 v2 : document.Value) : Except String document.Value :=
  if v1.tp == types.NullValue || v2.tp == types.NullValue then .ok nullLitteral
  else
    match compare tok v1 v2 with
    | .ok true => .ok trueLitteral
    | .ok false => .ok falseLitteral
    | .error e => .error e

end expr

/-! ## stream package (ranges file): ValueRange / IndexRange -/

namespace stream

/-- stream.ValueRange. A `document.Value` whose type tag is zero stands
for an unset bound (`Min.Type.IsZero()`); `encodedMin`/`encodedMax` are
nil until `encode` runs, modelled as Option. -/
structure ValueRange where
  Min : document.Value := ⟨types.AnyType, none⟩
  Max : document.Value := ⟨types.AnyType, none⟩
  Exclusive : Bool := false
  Exact : Bool := false
  encodedMin : Option (List Nat) := none
  encodedMax : Option (List Nat) := none
  rangeType : Nat := types.AnyType

/-- ValueRange.IsEqual, with its chain of early false returns. A
comparison error is treated as not-equal by the source; the modelled
valueIsEqual does not produce errors. -/
def ValueRange.IsEqual (r other : ValueRange) : Bool :=
  if r.Exact != other.Exact then false
  else if r.rangeType != other.rangeType then false
  else if r.Exclusive != other.Exclusive then false
  else if r.Min.tp != other.Min.tp then false
  else if !(document.valueIsEqual r.Min other.Min) then false
  else if r.Max.tp != other.Max.tp then false
  else if !(document.valueIsEqual r.Max other.Max) then false
  else true

abbrev ValueRanges := List ValueRange

/-- ValueRanges.Append: append rng, ignoring it when an element of r is
already IsEqual to it. -/
def ValueRanges.Append (r : ValueRanges) (rng : ValueRange) : ValueRanges :=
  if r.any (fun e => ValueRange.IsEqual e rng) then r else r ++ [rng]

/-- ValueRanges.Cost. Exact costs 1. The two-boundary branch adds 50 but,
unlike its IndexRanges counterpart, does not `continue`: execution falls
through to the remaining checks, so a two-sided range also takes the final
unconditional 200 of the no-boundary case. -/
def ValueRanges.Cost (r : ValueRanges) : Int :=
  r.foldl (fun cost rng =>
    if rng.Exact then cost + 1
    else
      let cost := if rng.Min.tp != 0 && rng.Max.tp != 0 then cost + 50 else cost
      if (rng.Min.tp != 0 && rng.Max.tp == 0) || (rng.Min.tp == 0 && rng.Max.tp != 0) then
        cost + 100
      else cost + 200) 0

/-- bytes.Compare: lexicographic three-way comparison. -/
def bytesCompare : List Nat → List Nat → Int
  | [], [] => 0
  | [], _ :: _ => -1
  | _ :: _, [] => 1
  | a :: as, b :: bs => if a < b then -1 else if b < a then 1 else bytesCompare as bs

/-- ValueRange.IsInRange. cmpMin defaults to 1 and cmpMax to -1 ("within
range"). Exact demands equality with the lower bound; Exclusive discards
values equal to either present bound. The final result only requires
`cmpMax <= 0`: the lower-bound comparison is never consulted outside the
Exact and Exclusive tests. -/
def ValueRange.IsInRange (r : ValueRange) (value : List Nat) : Bool :=
  let cmpMin : Int := match r.encodedMin with
    | some m => bytesCompare value m
    | none => 1
  if r.Exact then cmpMin == 0
  else if r.Exclusive && cmpMin == 0 then false
  else
    let cmpMax : Int := match r.encodedMax with
      | some m => bytesCompare value m
      | none => -1
    if r.Exclusive && cmpMax == 0 then false
    else cmpMax ≤ 0

/-- stream.IndexRange. Min and Max are ValueBuffers (nil modelled as the
empty list); Arity and IndexArityMax support partially-bounded composite
ranges. -/
structure IndexRange where
  Min : List document.Value := []
  Max : List document.Value := []
  Exclusive : Bool := false
  Exact : Bool := false
  Arity : Int := 0
  IndexArityMax : Int := 0
  encodedMin : Option (List Nat) := none
  encodedMax : Option (List Nat) := none
  rangeTypes : List Nat := []

/-- Modelled from the spec: document.ValueBuffer.IsEqual is not among the
provided source files; buffers are equal when they have the same length
and pairwise equal values. -/
def valueBufferIsEqual (a b : List document.Value) : Bool :=
  a.length == b.length && (a.zip b).all (fun p => document.valueIsEqual p.1 p.2)

/-- IndexRange.IsEqual. The source iterates r.rangeTypes and indexes
other.rangeTypes at the same position (a Go panic if other is shorter;
out-of-range positions are read as 0 here). -/
def IndexRange.IsEqual (r other : IndexRange) : Bool :=
  if r.Exact != other.Exact then false
  else if !((List.range r.rangeTypes.length).all
      (fun i => r.rangeTypes.getD i 0 == other.rangeTypes.getD i 0)) then false
  else if r.Exclusive != other.Exclusive then false
  else if !(valueBufferIsEqual r.Min other.Min) then false
  else if !(valueBufferIsEqual r.Max other.Max) then false
  else true

abbrev IndexRanges := List IndexRange

/-- IndexRanges.Append: append rng, ignoring it when an element of r is
already IsEqual to it. -/
def IndexRanges.Append (r : IndexRanges) (rng : IndexRange) : IndexRanges :=
  if r.any (fun e => IndexRange.IsEqual e rng) then r else r ++ [rng]

/-- IndexRanges.Cost: exact 1, two boundaries 50, one boundary 100, no
boundary 200; every branch of this variant continues to the next range. -/
def IndexRanges.Cost (r : IndexRanges) : Int :=
  r.foldl (fun cost rng =>
    if rng.Exact then cost + 1
    else if rng.Min.length > 0 && rng.Max.length > 0 then cost + 50
    else if rng.Min.length > 0 || rng.Max.length > 0 then cost + 100
    else cost + 200) 0

/-- IndexRange.IsInRange. Like the ValueRange variant, except that when
IndexArityMax < Arity the upper bound is compared against a prefix of the
value (Go slices value[:len(encodedMax)-1]; List.take is total where Go
would panic on a short value), and the final result requires both
`cmpMin >= 0` and `cmpMax <= 0`. -/
def IndexRange.IsInRange (r : IndexRange) (value : List Nat) : Bool :=
  let cmpMin : Int := match r.encodedMin with
    | some m => bytesCompare value m
    | none => 1
  if r.Exact then cmpMin == 0
  else if r.Exclusive && cmpMin == 0 then false
  else
    let cmpMax : Int := match r.encodedMax with
      | some m =>
        if r.IndexArityMax < r.Arity then bytesCompare (value.take (m.length - 1)) m
        else bytesCompare value m
      | none => -1
    if r.Exclusive && cmpMax == 0 then false
    else cmpMin ≥ 0 && cmpMax ≤ 0

end stream

/-! ## functions package (aggregator file): COUNT -/

namespace functions

abbrev Doc := List (String × document.Value)

inductive EvalErr where
  | fieldNotFound
  | failure (msg : String)

/-- A minimal expression shape for aggregation arguments: a field
reference or a literal. -/
inductive AExpr where
  | field (name : String)
  | lit (v : document.Value)

/-- Modelled from the spec: expression evaluation lives outside the
provided source files; per §7, FieldNotFound during expression evaluation
yields Null, so a field reference into a document lacking the field
produces the Null literal together with ErrFieldNotFound. -/
def exprEval (e : AExpr) (d : Doc) : document.Value × Option EvalErr :=
  match e with
  | .field n =>
    match (d.find? (fun f => f.fst == n)).map (·.snd) with
    | some v => (v, none)
    | none => (expr.nullLitteral, some .fieldNotFound)
  | .lit v => (v, none)

/-- Go struct comparison `v != expr.NullLiteral`: the value equals the
Null literal exactly when its tag is Null and its payload interface is
nil. -/
def isNullLiteral (v : document.Value) : Bool :=
  v.tp == types.NullValue && v.v.isNone

/-- CountAggregator.Aggregate: wildcard counts every row; otherwise the
expression is evaluated, errors other than ErrFieldNotFound abort, and
the counter is incremented when the result is not the Null literal. -/
def CountAggregator.Aggregate (wildcard : Bool) (e : AExpr) (count : Int) (d : Doc) :
    Except String Int :=
  if wildcard then .ok (count + 1)
  else
    let r := exprEval e d
    match r.snd with
    | some (.failure msg) => .error msg
    | _ => if !(isNullLiteral r.fst) then .ok (count + 1) else .ok count

/-- Aggregate applied to a stream of rows in order, threading the counter
of a single CountAggregator and stopping at the first error. -/
def countRun (wildcard : Bool) (e : AExpr) : List Doc → Int → Except String Int
  | [], c => .ok c
  | d :: ds, c =>
    match CountAggregator.Aggregate wildcard e c d with
    | .error msg => .error msg
    | .ok c2 => countRun wildcard e ds c2

end functions

/-! ## query package (sql/query/update.go): UPDATE's resumable scan.

The document payload is abstract; the where-filter `pred` and the Set
mutation `apply` parameterize the loop, whose buffering and resume logic
is what is embedded. -/

namespace query

def updateBufferSize : Nat := 100

/-- Modelled from the spec: deleteBufferSize is declared in the delete
statement file, which is not among the provided sources; §4.7 fixes
BUFFER=100 for both UPDATE and DELETE. -/
def deleteBufferSize : Nat := 100

abbrev Store (D : Type) := List (Nat × D)

/-- Iterator.Seek positions the engine iterator at the first key greater
than or equal to k; stores list their rows in ascending key order. The
initial nil curKey is key 0. -/
def seekStore {D : Type} (store : Store D) (k : Nat) : Store D :=
  store.filter (fun e => k ≤ e.fst)

/-- One st.Iterate pass of UpdateStmt.Run: the resumable iterator yields
rows from curKey on, the where-filter keeps matching rows, Limit stops
after updateBufferSize rows, and each buffered document is mutated by the
Set clause before being stored in the docs buffer alongside its key. -/
def collectBuffer {D : Type} (store : Store D) (curKey : Nat) (pred : D → Bool)
    (apply : D → D) : List (Nat × D) :=
  (((seekStore store curKey).filter (fun e => pred e.snd)).take updateBufferSize).map
    (fun e => (e.fst, apply e.snd))

/-- Table.Replace: overwrite the document stored at the given key. -/
def storeReplace {D : Type} (store : Store D) (k : Nat) (d : D) : Store D :=
  store.map (fun e => if e.fst == k then (k, d) else e)

/-- The outer loop of UpdateStmt.Run: collect a buffer, Replace each of
its rows, stop when the buffer was not full (i < deleteBufferSize),
otherwise set the resumable iterator's curKey to the last buffered key
(keys[i-1]) and loop. Returns the final store together with every key
passed to Replace, in order. The fuel bounds the number of rounds; it is
an embedding artifact and all evaluations supply enough of it. -/
def updateRun {D : Type} (pred : D → Bool) (apply : D → D) :
    Nat → Store D → Nat → Store D × List Nat
  | 0, store, _ => (store, [])
  | fuel + 1, store, curKey =>
    let buf := collectBuffer store curKey pred apply
    let store2 := buf.foldl (fun s e => storeReplace s e.fst e.snd) store
    if buf.length < deleteBufferSize then (store2, buf.map (·.fst))
    else
      match buf.getLast? with
      | none => (store2, buf.map (·.fst))
      | some last =>
        let r := updateRun pred apply fuel store2 last.fst
        (r.fst, buf.map (·.fst) ++ r.snd)

end query

/-! ## database package (internal/database/catalog.go): the catalog cache.

Go maps keyed by name become association lists with Go-map semantics:
lookup finds the entry, assignment overwrites in place or appends, delete
removes the entry, and reads of missing keys yield the zero value (nil
slice, that is the empty list). document.Path values are opaque lookup
keys here and are modelled as strings compared for equality. -/

namespace database

structure FieldConstraint where
  Path : String
  «Type» : Nat := 0
  IsNotNull : Bool := false
  deriving DecidableEq

structure TableInfo where
  TableName : String
  ReadOnly : Bool := false
  FieldConstraints : List FieldConstraint := []
  deriving DecidableEq

structure IndexInfo where
  IndexName : String
  TableName : String
  Paths : List String := []
  Types : List Nat := []
  ConstraintPath : Option String := none
  deriving DecidableEq

structure Sequence where
  Name : String
  deriving DecidableEq

structure catalogCache where
  tables : List (String × TableInfo) := []
  indexes : List (String × IndexInfo) := []
  indexesPerTables : List (String × List IndexInfo) := []
  sequences : List (String × Sequence) := []

abbrev Hook := catalogCache → catalogCache

def mapGet {α : Type} (m : List (String × α)) (k : String) : Option α :=
  (m.find? (fun e => e.fst == k)).map (·.snd)

def mapPut {α : Type} (m : List (String × α)) (k : String) (v : α) : List (String × α) :=
  if (m.find? (fun e => e.fst == k)).isSome then
    m.map (fun e => if e.fst == k then (k, v) else e)
  else m ++ [(k, v)]

def mapDel {α : Type} (m : List (String × α)) (k : String) : List (String × α) :=
  m.filter (fun e => e.fst != k)

/-- catalogCache.AddTable: reject a duplicate name in any of the three
object maps, insert the table, and append a rollback hook deleting it. -/
def catalogCache.AddTable (c : catalogCache) (info : TableInfo) :
    Except String (catalogCache × Hook) :=
  if (mapGet c.tables info.TableName).isSome then .error "already exists"
  else if (mapGet c.indexes info.TableName).isSome then .error "already exists"
  else if (mapGet c.sequences info.TableName).isSome then .error "already exists"
  else
    .ok ({ c with tables := mapPut c.tables info.TableName info },
      fun s => { s with tables := mapDel s.tables info.TableName })

/-- catalogCache.DeleteTable: remove the table and its per-table index
list, collect every index of the table by scanning the indexes map (Go
map iteration order is unspecified; the association-list order stands in
for one enumeration), and append a hook restoring the table, the scanned
indexes and, when any were found, the per-table list. -/
def catalogCache.DeleteTable (c : catalogCache) (tableName : String) :
    Except String (TableInfo × List IndexInfo × catalogCache × Hook) :=
  match mapGet c.tables tableName with
  | none => .error "table not found"
  | some ti =>
    if ti.ReadOnly then .error "cannot write to read-only table"
    else
      let removedIndexes := (c.indexes.filter (fun e => e.snd.TableName == tableName)).map (·.snd)
      let c2 := { c with tables := mapDel c.tables tableName,
                         indexesPerTables := mapDel c.indexesPerTables tableName }
      let hook : Hook := fun s =>
        let s1 := { s with tables := mapPut s.tables tableName ti }
        let s2 := { s1 with
          indexes := removedIndexes.foldl (fun m (idx : IndexInfo) => mapPut m idx.IndexName idx) s1.indexes }
        if removedIndexes.length > 0 then
          { s2 with indexesPerTables := mapPut s2.indexesPerTables tableName removedIndexes }
        else s2
      .ok (ti, removedIndexes, c2, hook)

def pathsToIndexName (paths : List String) : String :=
  String.intercalate "_" paths

/-- The auto-generation loop of catalogCache.AddIndex: try
`{table}_{paths}_idx`, then `{table}_{paths}_idx{i}` for i = 1, 2, ...
The Go loop increments until a free name appears; trying one more
candidate than there are registered indexes always suffices. -/
def freshIndexName (c : catalogCache) (tableName : String) (paths : List String) : String :=
  let base := tableName ++ "_" ++ pathsToIndexName paths ++ "_idx"
  if (mapGet c.indexes base).isNone then base
  else
    match (List.range (c.indexes.length + 1)).find?
        (fun i => (mapGet c.indexes (base ++ Nat.repr (i + 1))).isNone) with
    | some i => base ++ Nat.repr (i + 1)
    | none => base

/-- The OUTER loop of catalogCache.AddIndex populating info.Types: for
each indexed path, the first field constraint with an equal path is
consulted; a constraint declaring a type contributes that type, a
constraint declaring no type contributes nothing (the loop continues with
the next path), and a path with no matching constraint contributes the
untyped marker 0. -/
def computeIndexTypes (paths : List String) (fcs : List FieldConstraint) : List Nat :=
  paths.foldl (fun acc p =>
    match fcs.find? (fun fc => fc.Path == p) with
    | some fc => if fc.«Type» != 0 then acc ++ [fc.«Type»] else acc
    | none => acc ++ [0]) []

/-- catalogCache.AddIndex: generate a name if absent, reject duplicates
across the three maps, require the table, override info.Types from the
table's field constraints, register the index in the indexes map and at
the end of the table's index list, and append a hook undoing both. -/
def catalogCache.AddIndex (c : catalogCache) (info : IndexInfo) :
    Except String (IndexInfo × catalogCache × Hook) :=
  let name := if info.IndexName == "" then freshIndexName c info.TableName info.Paths
              else info.IndexName
  if (mapGet c.indexes name).isSome then .error "already exists"
  else if (mapGet c.tables name).isSome then .error "already exists"
  else if (mapGet c.sequences name).isSome then .error "already exists"
  else
    match mapGet c.tables info.TableName with
    | none => .error "table not found"
    | some ti =>
      let info2 := { info with IndexName := name,
                               Types := computeIndexTypes info.Paths ti.FieldConstraints }
      let previousIndexes := (mapGet c.indexesPerTables info.TableName).getD []
      let c2 := { c with
        indexes := mapPut c.indexes name info2,
        indexesPerTables := mapPut c.indexesPerTables info.TableName (previousIndexes ++ [info2]) }
      let hook : Hook := fun s =>
        let s1 := { s with indexes := mapDel s.indexes name }
        if previousIndexes.length == 0 then
          { s1 with indexesPerTables := mapDel s1.indexesPerTables info.TableName }
        else
          { s1 with indexesPerTables := mapPut s1.indexesPerTables info.TableName previousIndexes }
      .ok (info2, c2, hook)

/-- catalogCache.DeleteIndex: refuse constraint-backed indexes, remove
the index from the indexes map, rebuild the table's index list without
it, and append a hook restoring both. -/
def catalogCache.DeleteIndex (c : catalogCache) (indexName : String) :
    Except String (IndexInfo × catalogCache × Hook) :=
  match mapGet c.indexes indexName with
  | none => .error "index not found"
  | some info =>
    if info.ConstraintPath.isSome then .error "cannot drop index required by a constraint"
    else
      let oldIndexList := (mapGet c.indexesPerTables info.TableName).getD []
      let newIndexList := oldIndexList.filter (fun idx => idx.IndexName != indexName)
      let c2 := { c with
        indexes := mapDel c.indexes indexName,
        indexesPerTables := mapPut c.indexesPerTables info.TableName newIndexList }
      let hook : Hook := fun s =>
        { s with indexes := mapPut s.indexes indexName info,
                 indexesPerTables := mapPut s.indexesPerTables info.TableName oldIndexList }
      .ok (info, c2, hook)

/-- catalogCache.updateTable: clone the table info, apply the update
function, and when the clone was renamed move the table and every
dependent index to the new name. The clone is written back under its
(possibly new) table name; the hook deletes the clone's name, restores
the original info and indexes, and for a rename moves the per-table index
list back. TableInfo.Clone followed by in-place mutation is a pure
function here. -/
def catalogCache.updateTable (c : catalogCache) (tableName : String)
    (fn : TableInfo → Except String TableInfo) :
    Except String (TableInfo × List IndexInfo × catalogCache × Hook) :=
  match mapGet c.tables tableName with
  | none => .error "table not found"
  | some ti =>
    if ti.ReadOnly then .error "cannot write to read-only table"
    else
      match fn ti with
      | .error e => .error e
      | .ok clone =>
        let renamed := clone.TableName != tableName
        let c1 := if renamed then { c with tables := mapDel c.tables tableName } else c
        let oldIndexes : List IndexInfo :=
          if renamed then (mapGet c.indexesPerTables tableName).getD [] else []
        let newIndexes := oldIndexes.map (fun idx => { idx with TableName := clone.TableName })
        let c2 := { c1 with
          indexes := newIndexes.foldl (fun m (idx : IndexInfo) => mapPut m idx.IndexName idx) c1.indexes }
        let c3 := if renamed && newIndexes.length > 0 then
            { c2 with indexesPerTables :=
                mapDel (mapPut c2.indexesPerTables clone.TableName newIndexes) tableName }
          else c2
        let c4 := { c3 with tables := mapPut c3.tables clone.TableName clone }
        let hook : Hook := fun s =>
          let s1 := { s with tables := mapPut (mapDel s.tables clone.TableName) tableName ti }
          let s2 := { s1 with
            indexes := oldIndexes.foldl (fun m (idx : IndexInfo) => mapPut m idx.IndexName idx) s1.indexes }
          if renamed then
            { s2 with indexesPerTables :=
                mapPut (mapDel s2.indexesPerTables clone.TableName) tableName oldIndexes }
          else s2
        .ok (clone, newIndexes, c4, hook)

/-- catalogCache.AddSequence: mirror of AddTable for sequences. -/
def catalogCache.AddSequence (c : catalogCache) (name : String) :
    Except String (catalogCache × Hook) :=
  if (mapGet c.sequences name).isSome then .error "already exists"
  else if (mapGet c.tables name).isSome then .error "already exists"
  else if (mapGet c.indexes name).isSome then .error "already exists"
  else
    .ok ({ c with sequences := mapPut c.sequences name ⟨name⟩ },
      fun s => { s with sequences := mapDel s.sequences name })

/-- catalogCache.DeleteSequence: remove the sequence and append a hook
restoring it. -/
def catalogCache.DeleteSequence (c : catalogCache) (name : String) :
    Except String (Sequence × catalogCache × Hook) :=
  match mapGet c.sequences name with
  | none => .error "sequence not found"
  | some seq =>
    .ok (seq, { c with sequences := mapDel c.sequences name },
      fun s => { s with sequences := mapPut s.sequences name seq })

end database

/-! ## Concrete fixtures for the evaluation theorems -/

def tiA : database.TableInfo := { TableName := "A" }

def tiB : database.TableInfo := { TableName := "B" }

/-- A catalog cache holding two tables named A and B. -/
def c1Cache : database.catalogCache := { tables := [("A", tiA), ("B", tiB)] }

/-- Run updateTable with an update function renaming A to B, exactly as
Catalog.RenameTable does, then run the appended rollback hook, as an
aborting transaction would (the persisted-catalog insert of the duplicate
name B is what fails and forces the rollback). -/
def c1Restored : Option database.catalogCache :=
  match database.catalogCache.updateTable c1Cache "A"
      (fun t => .ok { t with TableName := "B" }) with
  | .ok (_, _, c2, hook) => some (hook c2)
  | .error _ => none

/-- A table with a single field constraint on path a that declares no
type, as produced by `CREATE TABLE t(a NOT NULL)` (compare the parser
tests), and an index over that path. -/
def c7Cache : database.catalogCache :=
  { tables := [("t", { TableName := "t", FieldConstraints := [{ Path := "a" }] })] }

/-- The Types slice of the IndexInfo registered by AddIndex for an index
over the single path a of that table. -/
def c7IndexTypes : Option (List Nat) :=
  match database.catalogCache.AddIndex c7Cache
      { IndexName := "idx", TableName := "t", Paths := ["a"] } with
  | .ok (info2, _, _) => some info2.Types
  | .error _ => none

/-- 101 rows with keys 0..100, every document the counter 0. -/
def c6Store : query.Store Nat := (List.range 101).map (fun k => (k, 0))

/-- UPDATE t SET counter = counter + 1 WHERE counter < 2 against that
store: the first buffer holds keys 0..99 and is full, so the loop resumes
at curKey = 99. -/
def c6Run : query.Store Nat × List Nat :=
  query.updateRun (fun d => d < 2) (fun d => d + 1) 3 c6Store 0

def twoSidedValueRange : stream.ValueRange :=
  { Min := document.NewIntegerValue 1, Max := document.NewIntegerValue 4 }

def oneSidedValueRange : stream.ValueRange := { Min := document.NewIntegerValue 1 }

def openValueRange : stream.ValueRange := {}

def exactValueRange : stream.ValueRange :=
  { Min := document.NewIntegerValue 1, Exact := true }

def twoSidedIndexRange : stream.IndexRange :=
  { Min := [document.NewIntegerValue 1], Max := [document.NewIntegerValue 4] }

/-- An encoded range [2, 4] for both range flavors. -/
def encodedValueRange : stream.ValueRange := { encodedMin := some [2], encodedMax := some [4] }

def encodedIndexRange : stream.IndexRange := { encodedMin := some [2], encodedMax := some [4] }

/-- The claim's image of a well-formed value: one built by the document
package constructors. -/
def WFValue (val : document.Value) : Prop :=
  val = document.NewNullValue ∨
  (∃ b, val = document.NewBoolValue b) ∨
  (∃ i, val = document.NewIntegerValue i) ∨
  (∃ q, val = document.NewDoubleValue q) ∨
  (∃ s, val = document.NewTextValue s) ∨
  (∃ bs, val = document.NewBlobValue bs) ∨
  (∃ es, val = document.NewArrayValue es) ∨
  (∃ fs, val = document.NewDocumentValue fs)

/-- The zero values exactly as the claim words them: integer 0, double
0.0, false, the empty string, the empty blob, the empty array, and the
empty document. -/
def zeroValueClaim (val : document.Value) : Bool :=
  match val.v with
  | some (.vint i) => i == 0
  | some (.vdouble q) => q == 0
  | some (.vbool b) => b == false
  | some (.vstring s) => s == ""
  | some (.vbytes bs) => bs.isEmpty
  | some (.varray es) => es.isEmpty
  | some (.vdoc fs) => fs.isEmpty
  | none => false

/-- The amended zero-value list: as the claim, except that a blob is
never a zero value (the source compares the payload interface with nil,
which no constructed blob satisfies). -/
def zeroValueAmended (val : document.Value) : Bool :=
  match val.v with
  | some (.vint i) => i == 0
  | some (.vdouble q) => q == 0
  | some (.vbool b) => b == false
  | some (.vstring s) => s == ""
  | some (.vbytes _) => false
  | some (.varray es) => es.isEmpty
  | some (.vdoc fs) => fs.isEmpty
  | none => false

end Genji

/-! # Theorems -/

namespace Genji

/-! ## Helper lemmas -/

theorem goValEq_refl : ∀ v : GoVal, document.goValEq v v = true
  | .vbool b => by simp [document.goValEq]
  | .vint i => by simp [document.goValEq]
  | .vdouble q => by simp [document.goValEq]
  | .vstring s => by simp [document.goValEq]
  | .vbytes bs => by simp [document.goValEq]
  | .varray [] => by simp [document.goValEq]
  | .varray (x :: xs) => by
      simp [document.goValEq, goValEq_refl x, goValEq_refl (.varray xs)]
  | .vdoc [] => by simp [document.goValEq]
  | .vdoc ((n, x) :: xs) => by
      simp [document.goValEq, goValEq_refl x, goValEq_refl (.vdoc xs)]
termination_by v => sizeOf v

theorem goValOptEq_refl (o : Option GoVal) : document.goValOptEq o o = true := by
  cases o <;> simp [document.goValOptEq, goValEq_refl]

theorem valueIsEqual_refl (v : document.Value) : document.valueIsEqual v v = true := by
  simp [document.valueIsEqual, goValOptEq_refl]

theorem zipSelfAllIsEqual : ∀ a : List document.Value,
    (a.zip a).all (fun p => document.valueIsEqual p.1 p.2) = true := by
  intro a
  induction a with
  | nil => rfl
  | cons x xs ih => simp [List.zip_cons_cons, valueIsEqual_refl, ih]

theorem valueBufferIsEqual_refl (a : List document.Value) :
    stream.valueBufferIsEqual a a = true := by
  simp [stream.valueBufferIsEqual, zipSelfAllIsEqual]

theorem valueRangeIsEqual_refl (r : stream.ValueRange) :
    stream.ValueRange.IsEqual r r = true := by
  simp [stream.ValueRange.IsEqual, valueIsEqual_refl]

theorem indexRangeIsEqual_refl (r : stream.IndexRange) :
    stream.IndexRange.IsEqual r r = true := by
  simp [stream.IndexRange.IsEqual, valueBufferIsEqual_refl]

/-! ## Claim theorems -/

/-- C2: for every arithmetic operation, if either operand is Null or Bool
the result is Null; and for every comparison token evaluated through
cmpOp.Eval, if either operand is Null the result is the Null literal,
whatever the dispatched comparison does. -/
theorem c2_null_bool_propagation (op : document.ArithOp) (a b : document.Value)
    (compare : expr.CmpTok → document.Value → document.Value → Except String Bool)
    (tok : expr.CmpTok) (v1 v2 : document.Value)
    (h1 : a.tp = types.NullValue ∨ b.tp = types.NullValue ∨
      a.tp = types.BoolValue ∨ b.tp = types.BoolValue)
    (h2 : v1.tp = types.NullValue ∨ v2.tp = types.NullValue) :
    document.calculateValues a b op = .ok document.NewNullValue ∧
    expr.cmpOpEval compare tok v1 v2 = .ok expr.nullLitteral := by
  constructor
  · unfold document.calculateValues
    rcases h1 with h | h | h | h <;>
      simp [h, types.NullValue, types.BoolValue]
  · unfold expr.cmpOpEval
    rcases h2 with h | h <;> simp [h]

theorem c2_null_bool_propagation_witness :
    document.calculateValues document.NewNullValue (document.NewIntegerValue 1)
      document.ArithOp.add = .ok document.NewNullValue ∧
    expr.cmpOpEval (fun _ _ _ => .ok false) expr.CmpTok.eq document.NewNullValue
      (document.NewIntegerValue 1) = .ok expr.nullLitteral :=
  c2_null_bool_propagation document.ArithOp.add document.NewNullValue
    (document.NewIntegerValue 1) (fun _ _ _ => .ok false) expr.CmpTok.eq
    document.NewNullValue (document.NewIntegerValue 1) (Or.inl rfl) (Or.inl rfl)

/-- C3: subtracting the minimal int64 silently wraps. The Go case for
subtraction negates the second operand before falling through to the
addition body, and negating -2^63 wraps back to -2^63, so
Sub(Integer(0), Integer(-2^63)) passes the overflow test and returns the
wrapped Integer -2^63, although the exact result 2^63 exceeds the largest
int64 and the operation should have promoted to a Double. -/
theorem c3_sub_min_int64_wraps_silently :
    document.Sub (document.NewIntegerValue 0) (document.NewIntegerValue (-(2 ^ 63)))
      = .ok (document.NewIntegerValue (-(2 ^ 63))) ∧
    (0 : Int) - (-(2 ^ 63)) = 2 ^ 63 ∧ (2 ^ 63 - 1 : Int) < 2 ^ 63 := by
  refine ⟨rfl, by norm_num, by norm_num⟩

/-- Supporting fact for C3: for operands within int64 range, the shared
addition body returns the exact integer sum whenever it fits in int64 and
promotes to a Double exactly on overflow; the C3 divergence is therefore
confined to the wrapping negation performed by the subtraction case. -/
theorem integerAddBodyExactOrPromotes (xa xb : Int)
    (ha1 : -(2 ^ 63) ≤ xa) (ha2 : xa < 2 ^ 63)
    (hb1 : -(2 ^ 63) ≤ xb) (hb2 : xb < 2 ^ 63) :
    document.integerAddBody xa xb =
      (if -(2 ^ 63) ≤ xa + xb ∧ xa + xb < 2 ^ 63
       then .ok (document.NewIntegerValue (xa + xb))
       else .ok (document.NewDoubleValue ((xa : Rat) + (xb : Rat)))) := by
  unfold document.integerAddBody document.wrap64
  by_cases hfit : -(2 ^ 63) ≤ xa + xb ∧ xa + xb < 2 ^ 63
  · have hw : (xa + xb + 2 ^ 63) % 2 ^ 64 - 2 ^ 63 = xa + xb := by omega
    rw [hw]
    dsimp only
    have hc : (decide (xa + xb > xa)) = (decide (xb > 0)) := by
      simp only [decide_eq_decide]
      omega
    rw [hc, bne_self_eq_false]
    show Except.ok (document.NewIntegerValue (xa + xb)) = _
    split
    · rfl
    · next h => exact absurd hfit h
  · have hsplit : xa + xb ≥ 2 ^ 63 ∨ xa + xb < -(2 ^ 63) := by omega
    rcases hsplit with hs | hs
    · have hw : (xa + xb + 2 ^ 63) % 2 ^ 64 - 2 ^ 63 = xa + xb - 2 ^ 64 := by omega
      rw [hw]
      dsimp only
      rw [decide_eq_false (by omega : ¬(xa + xb - 2 ^ 64 > xa)),
        decide_eq_true (by omega : xb > 0)]
      show Except.ok (document.NewDoubleValue ((xa : Rat) + (xb : Rat))) = _
      split
      · next h => exact absurd h (by omega)
      · rfl
    · have hw : (xa + xb + 2 ^ 63) % 2 ^ 64 - 2 ^ 63 = xa + xb + 2 ^ 64 := by omega
      rw [hw]
      dsimp only
      rw [decide_eq_true (by omega : xa + xb + 2 ^ 64 > xa),
        decide_eq_false (by omega : ¬(xb > 0))]
      show Except.ok (document.NewDoubleValue ((xa : Rat) + (xb : Rat))) = _
      split
      · next h => exact absurd h (by omega)
      · rfl

theorem integerAddBodyExactOrPromotesWitness :
    document.integerAddBody 2 3 = .ok (document.NewIntegerValue 5) :=
  (integerAddBodyExactOrPromotes 2 3 (by norm_num) (by norm_num) (by norm_num)
    (by norm_num)).trans (by norm_num)

/-- C4: a single non-exact ValueRange with both boundaries costs 250, not
the claimed 50: the two-boundary branch of ValueRanges.Cost lacks the
continue of its IndexRanges counterpart and falls through to the final
unconditional 200. This also breaks the claimed monotonicity chain, since
a one-sided range costs 100 and an open range costs 200. The IndexRanges
variant does return 50. -/
theorem c4_value_ranges_two_sided_cost :
    stream.ValueRanges.Cost [twoSidedValueRange] = 250 ∧
    stream.ValueRanges.Cost [oneSidedValueRange] = 100 ∧
    stream.ValueRanges.Cost [openValueRange] = 200 ∧
    stream.ValueRanges.Cost [exactValueRange] = 1 ∧
    stream.IndexRanges.Cost [twoSidedIndexRange] = 50 :=
  ⟨rfl, rfl, rfl, rfl, rfl⟩

/-- C5: ValueRange.IsInRange accepts the value [1] although it is below
the encoded lower bound [2] of the non-exact range [2, 4]: the function
only tests `cmpMax <= 0` and never requires `cmpMin >= 0`. The IndexRange
variant does enforce the lower bound and rejects the same value. -/
theorem c5_value_range_ignores_lower_bound :
    stream.ValueRange.IsInRange encodedValueRange [1] = true ∧
    stream.bytesCompare [1] [2] = -1 ∧
    stream.IndexRange.IsInRange encodedIndexRange [1] = false :=
  ⟨rfl, rfl, rfl⟩

/-- C7: AddIndex on a path whose field constraint declares no type
appends nothing to info.Types, so for an index over the single path a of
a table with the untyped constraint on a the registered Types slice is
empty instead of the one-element slice [0] the claim requires, and Types
no longer aligns with Paths. -/
theorem c7_add_index_types_misaligned :
    c7IndexTypes = some [] ∧ c7IndexTypes ≠ some [0] :=
  ⟨rfl, by decide⟩

/-- C1: the rollback hooks do not always restore the cache. Starting from
a cache with tables A and B, updateTable renaming A to B (the cache step
of RenameTable) overwrites B's entry without any duplicate check; the
appended hook deletes the clone's name B and restores A, so after the
aborting transaction runs its hook, table B has vanished from the cache
instead of being restored. -/
theorem c1_rollback_rename_clobbers_cache :
    database.mapGet c1Cache.tables "B" = some tiB ∧
    c1Restored.map (fun s => database.mapGet s.tables "B") = some none ∧
    c1Restored.map (fun s => database.mapGet s.tables "A") = some (some tiA) :=
  ⟨rfl, rfl, rfl⟩

/-- C6: the resumable UPDATE scan repositions at keys[i-1] itself, not
strictly after it, so the last row of a full buffer is read again by the
next round; when the updated document still matches the where-clause it
is updated a second time. Against 101 rows holding counter 0 and the
statement SET counter = counter + 1 WHERE counter < 2, key 99 closes the
first full buffer, is revisited by the second round, and ends up with
counter 2: it appears twice in the Replace log. -/
theorem c6_update_resume_revisits_last_key :
    List.count 99 c6Run.snd = 2 ∧
    c6Run.fst.find? (fun e => e.fst == 99) = some (99, 2) := by
  refine ⟨by decide, by decide⟩

/-- C8 counterexample: the empty blob is truthy. IsZeroValue compares the
payload interface with nil, which a constructed blob never satisfies, so
IsTruthy returns true on the empty blob while the claim's zero-value list
declares it a zero value (hence not truthy). -/
theorem c8_truthiness_blob_counterexample :
    document.IsTruthy (document.NewBlobValue []) = .ok true ∧
    zeroValueClaim (document.NewBlobValue []) = true :=
  ⟨rfl, rfl⟩

/-- C8 amended: for every constructed value, IsTruthy returns true iff
the value is not Null and not one of the zero values, where the zero
values are integer 0, double 0.0, false, the empty string, the empty
array and the empty document — but not the empty blob. -/
theorem c8_truthiness_amended (val : document.Value) (h : WFValue val) :
    document.IsTruthy val =
      .ok (!(val.tp == types.NullValue) && !(zeroValueAmended val)) := by
  rcases h with h | ⟨b, h⟩ | ⟨i, h⟩ | ⟨q, h⟩ | ⟨s, h⟩ | ⟨bs, h⟩ | ⟨es, h⟩ | ⟨fs, h⟩ <;>
    subst h <;>
    simp [document.IsTruthy, document.IsZeroValue, zeroValueAmended,
      document.NewNullValue, document.NewBoolValue, document.NewIntegerValue,
      document.NewDoubleValue, document.NewTextValue, document.NewBlobValue,
      document.NewArrayValue, document.NewDocumentValue,
      types.NullValue, types.BoolValue, types.IntegerValue, types.DoubleValue,
      types.TextValue, types.BlobValue, types.ArrayValue, types.DocumentValue,
      Except.map]

theorem c8_truthiness_amended_witness :
    document.IsTruthy (document.NewBoolValue false) = .ok false :=
  (c8_truthiness_amended (document.NewBoolValue false)
    (Or.inr (Or.inl ⟨false, rfl⟩))).trans rfl

/-- CountAggregator.Aggregate without the wildcard never fails on the
modelled expressions and counts exactly the evaluations that are not the
Null literal. -/
theorem aggregateFalseEq (e : functions.AExpr) (c : Int) (d : functions.Doc) :
    functions.CountAggregator.Aggregate false e c d =
      .ok (if !(functions.isNullLiteral (functions.exprEval e d).fst) then c + 1 else c) := by
  cases e with
  | lit v =>
    by_cases hv : functions.isNullLiteral v = true <;>
      simp [functions.CountAggregator.Aggregate, functions.exprEval, hv]
  | field n =>
    cases hf : List.find? (fun f => f.fst == n) d with
    | none =>
      simp [functions.CountAggregator.Aggregate, functions.exprEval, hf,
        functions.isNullLiteral, expr.nullLitteral, document.NewNullValue]
    | some p =>
      by_cases hv : functions.isNullLiteral p.snd = true <;>
        simp [functions.CountAggregator.Aggregate, functions.exprEval, hf, hv]

theorem countRunTrue (e : functions.AExpr) :
    ∀ (docs : List functions.Doc) (c : Int),
      functions.countRun true e docs c = .ok (c + docs.length) := by
  intro docs
  induction docs with
  | nil => intro c; simp [functions.countRun]
  | cons d ds ih =>
    intro c
    show functions.countRun true e ds (c + 1) = _
    rw [ih (c + 1)]
    congr 1
    simp only [List.length_cons]
    omega

theorem countRunFalse (e : functions.AExpr) :
    ∀ (docs : List functions.Doc) (c : Int),
      functions.countRun false e docs c =
        .ok (c + (docs.filter
          (fun d => !(functions.isNullLiteral (functions.exprEval e d).fst))).length) := by
  intro docs
  induction docs with
  | nil => intro c; simp [functions.countRun]
  | cons d ds ih =>
    intro c
    rw [functions.countRun, aggregateFalseEq]
    cases hd : functions.isNullLiteral (functions.exprEval e d).fst with
    | true =>
      show functions.countRun false e ds c = _
      rw [ih c]
      congr 2
      simp [List.filter_cons, hd]
    | false =>
      show functions.countRun false e ds (c + 1) = _
      rw [ih (c + 1)]
      congr 1
      simp only [List.filter_cons, hd, Bool.not_false, if_true, List.length_cons]
      omega

/-- C9: over any stream of rows, COUNT with the wildcard counts every row
and COUNT(expr) counts exactly the rows on which the expression does not
evaluate to the Null literal; a field reference into a document lacking
the field evaluates to the Null literal (with ErrFieldNotFound) and is
therefore not counted. -/
theorem c9_count_aggregator_semantics (docs : List functions.Doc) (e : functions.AExpr) :
    functions.countRun true e docs 0 = .ok (docs.length : Int) ∧
    functions.countRun false e docs 0 =
      .ok (((docs.filter
        (fun d => !(functions.isNullLiteral (functions.exprEval e d).fst))).length : Int)) := by
  refine ⟨?_, ?_⟩
  · simpa using countRunTrue e docs 0
  · simpa using countRunFalse e docs 0

/-- C10: Append never introduces duplicates — it returns the list
unchanged when an element is already IsEqual to the appended range and
otherwise appends it at the end — and appending the same range twice
equals appending it once, for both range flavors. -/
theorem c10_ranges_append_idempotent (r : stream.ValueRanges) (rng : stream.ValueRange)
    (s : stream.IndexRanges) (srng : stream.IndexRange) :
    stream.ValueRanges.Append r rng =
      (if r.any (fun e => stream.ValueRange.IsEqual e rng) then r else r ++ [rng]) ∧
    stream.IndexRanges.Append s srng =
      (if s.any (fun e => stream.IndexRange.IsEqual e srng) then s else s ++ [srng]) ∧
    stream.ValueRanges.Append (stream.ValueRanges.Append r rng) rng
      = stream.ValueRanges.Append r rng ∧
    stream.IndexRanges.Append (stream.IndexRanges.Append s srng) srng
      = stream.IndexRanges.Append s srng := by
  refine ⟨rfl, rfl, ?_, ?_⟩
  · unfold stream.ValueRanges.Append
    cases h : r.any (fun e => stream.ValueRange.IsEqual e rng) with
    | true => simp [h]
    | false => simp [h, List.any_append, valueRangeIsEqual_refl]
  · unfold stream.IndexRanges.Append
    cases h : s.any (fun e => stream.IndexRange.IsEqual e srng) with
    | true => simp [h]
    | false => simp [h, List.any_append, indexRangeIsEqual_refl]

theorem c9_count_aggregator_semantics_witness :
    functions.countRun true (functions.AExpr.field "x")
      [[("x", document.NewIntegerValue 1)], []] 0 = .ok 2 ∧
    functions.countRun false (functions.AExpr.field "x")
      [[("x", document.NewIntegerValue 1)], []] 0 = .ok 1 := by
  have h := c9_count_aggregator_semantics
    [[("x", document.NewIntegerValue 1)], []] (functions.AExpr.field "x")
  exact ⟨h.1.trans (by rfl), h.2.trans (by rfl)⟩

theorem c10_ranges_append_idempotent_witness :
    stream.ValueRanges.Append (stream.ValueRanges.Append [] exactValueRange) exactValueRange
      = stream.ValueRanges.Append [] exactValueRange :=
  (c10_ranges_append_idempotent [] exactValueRange [] twoSidedIndexRange).2.2.1

end Genji
